import Mathlib

/-!
Verification development for the PostgreSQL bulk-extraction benchmark
(`main.go`).  The program launches several row-extraction strategies over the
`pgbench_accounts` table (columns `aid`, `bid`, `abalance`), each writing the
rows with `aid <= limit` in ascending `aid` order to its own CSV file, in
batches of `batchSize` rows.

The shallow embedding models the table as a list of rows enumerated in
ascending primary-key order (the queries all carry `ORDER BY aid ASC`, and
`aid` is the primary key, so result sets are strictly sorted).  SQL queries
become list operations: `WHERE` is `filter`, `LIMIT` is `take`, `OFFSET` is
`drop`.  Go `int` fields are modelled as `Int`; the batch size, a positive
row-count in every reachable configuration, is modelled as `Nat`.
-/

/-- Row of `pgbench_accounts` as scanned by the strategies:
`SELECT aid, bid, abalance`. -/
structure Row where
  aid : Int
  bid : Int
  abalance : Int
deriving DecidableEq, Repr

/-- Result set of the bounded ordered scan
`SELECT aid, bid, abalance FROM pgbench_accounts WHERE aid <= limit ORDER BY aid ASC`
used (with different pagination) by every strategy.  `t` is the table in
ascending key order. -/
def selectLe (t : List Row) (L : Int) : List Row :=
  t.filter (fun r => decide (r.aid ≤ L))

/-- Table contents enumerated in strictly ascending primary-key order;
`aid` is the primary key of `pgbench_accounts`. -/
def rowsSorted (l : List Row) : Prop :=
  l.Pairwise (fun r s => r.aid < s.aid)

/-- Loop of `fetchWithCursor` (main.go lines 136-187) on the cursor result
set `s`: each iteration executes `FETCH batchSize FROM my_cursor`, breaks on
an empty batch, otherwise consumes the first fetched row in the
`if !rows.Next()` emptiness check and writes the remaining rows of the batch
(`for rows.Next()`) to the CSV. -/
def cursorRun (b : Nat) (s : List Row) : List Row :=
  if h : s.take b = [] then []
  else (s.take b).tail ++ cursorRun b (s.drop b)
termination_by s.length
decreasing_by
  rw [List.take_eq_nil_iff] at h
  push_neg at h
  have h1 : s.length ≠ 0 := by
    intro hlen
    exact h.2 (List.eq_nil_of_length_eq_zero hlen)
  simp only [List.length_drop]
  omega

/-- Loop of `fetchWithOffsetLimit` (main.go lines 326-387): each iteration
queries `WHERE aid <= limit ORDER BY aid ASC OFFSET offset LIMIT batchSize`
(on the sorted bounded set `S` this is `(S.drop off).take b`), breaks on an
empty batch, otherwise consumes the first row in the emptiness check, writes
the rest, and advances `offset` by `batchSize`. -/
def offsetRun (b : Nat) (S : List Row) (off : Nat) : List Row :=
  if h : (S.drop off).take b = [] then []
  else ((S.drop off).take b).tail ++ offsetRun b S (off + b)
termination_by S.length - off
decreasing_by
  rw [List.take_eq_nil_iff] at h
  push_neg at h
  have h1 : S.length - off ≠ 0 := by
    intro hlen
    exact h.2 (by simpa [List.drop_eq_nil_iff] using Nat.le_of_sub_eq_zero hlen)
  omega

/-- Batch query of `fetchWithCustomCursor` (main.go lines 234-239):
`SELECT aid, bid, abalance FROM pgbench_accounts
 WHERE aid > lastId AND aid <= limit ORDER BY aid ASC LIMIT batchSize`. -/
def customQuery (t : List Row) (L lid : Int) (b : Nat) : List Row :=
  (t.filter (fun r => decide (lid < r.aid) && decide (r.aid ≤ L))).take b

/-- Termination status of the fuel-indexed keyset loop: `done` when the Go
loop reached its `break` (empty batch), `outOfFuel` when the modelled fuel
ran out while the loop was still running. -/
inductive FetchStatus where
  | done
  | outOfFuel
deriving DecidableEq, Repr

/-- State observed of a (possibly unfinished) `fetchWithCustomCursor` run:
the rows written to the CSV so far, whether the loop has finished, and the
current value of the `lastId` watermark variable. -/
structure CustomOut where
  written : List Row
  status : FetchStatus
  lastId : Int
deriving DecidableEq, Repr

/-- Loop of `fetchWithCustomCursor` (main.go lines 231-292), indexed by fuel
because the loop does not terminate from every state: each iteration issues
`customQuery`, breaks on an empty batch, otherwise consumes the first row in
the `if !rows.Next()` emptiness check (without scanning it), writes the
remaining rows, setting `lastId` to each written row's `aid` in turn (so on a
one-row batch `lastId` is left unchanged and the next iteration repeats the
identical query). -/
def customFuel (t : List Row) (L : Int) (b : Nat) : Nat → Int → CustomOut
  | 0, lid => ⟨[], .outOfFuel, lid⟩
  | fuel + 1, lid =>
    let batch := customQuery t L lid b
    if batch = [] then ⟨[], .done, lid⟩
    else
      let w := batch.tail
      let lid2 := ((w.getLast?).map Row.aid).getD lid
      let rest := customFuel t L b fuel lid2
      ⟨w ++ rest.written, rest.status, rest.lastId⟩

/-- Modelled from the spec: the Bulk Streaming Export strategy (spec section
4.4, the `copy` strategy of the README) is absent from `src/`; per the spec
it issues a single bulk-copy command over the bounded ordered query and
streams the entire result set into its output artifact in one pass. -/
def copyRun (t : List Row) (L : Int) : List Row :=
  selectLe t L

/-- Consecutive batches of size `b` that the cursor and offset strategies
fetch from the bounded ordered result set `s`. -/
def chunks (b : Nat) (s : List Row) : List (List Row) :=
  if h : s.take b = [] then []
  else s.take b :: chunks b (s.drop b)
termination_by s.length
decreasing_by
  rw [List.take_eq_nil_iff] at h
  push_neg at h
  have h1 : s.length ≠ 0 := by
    intro hlen
    exact h.2 (List.eq_nil_of_length_eq_zero hlen)
  simp only [List.length_drop]
  omega

/-- Scenario table of testable property 8: `n` rows keyed `1..n` (pgbench
fills `bid` with the branch id of the account and `abalance` with `0`). -/
def mkRow (i : Nat) : Row :=
  ⟨(i : Int) + 1, (i / 100000 : Nat) + 1, 0⟩

/-- Table pre-populated with `n` rows keyed `1..n` in ascending order. -/
def mkTable (n : Nat) : List Row :=
  (List.range n).map mkRow

example : cursorRun 2 [⟨1, 1, 0⟩, ⟨2, 1, 0⟩, ⟨3, 1, 0⟩] = [⟨2, 1, 0⟩] := by
  simp [cursorRun]
example : offsetRun 2 [⟨1, 1, 0⟩, ⟨2, 1, 0⟩, ⟨3, 1, 0⟩] 0 = [⟨2, 1, 0⟩] := by
  simp [offsetRun]
example :
    customFuel [⟨1, 1, 0⟩, ⟨2, 1, 0⟩, ⟨3, 1, 0⟩] 3 2 4 0 =
      ⟨[⟨2, 1, 0⟩], .outOfFuel, 2⟩ := by decide
example : customFuel [⟨1, 1, 0⟩, ⟨2, 1, 0⟩] 2 2 4 0 = ⟨[⟨2, 1, 0⟩], .done, 2⟩ := by decide
example : chunks 2 [⟨1, 1, 0⟩, ⟨2, 1, 0⟩, ⟨3, 1, 0⟩] =
    [[⟨1, 1, 0⟩, ⟨2, 1, 0⟩], [⟨3, 1, 0⟩]] := by
  simp [chunks]

/-! ### Basic lemmas about the pure batch loops -/

theorem cursorRun_nil (b : Nat) : cursorRun b [] = [] := by
  rw [cursorRun]
  simp

theorem cursorRun_sublist (b : Nat) (s : List Row) : (cursorRun b s).Sublist s := by
  induction s using cursorRun.induct b with
  | case1 s h => rw [cursorRun]; simp [h]
  | case2 s h ih =>
    rw [cursorRun, dif_neg h]
    have h2 : ((s.take b).tail ++ cursorRun b (s.drop b)).Sublist (s.take b ++ s.drop b) :=
      List.Sublist.append (List.tail_sublist _) ih
    simpa using h2

theorem cursorRun_one (s : List Row) : cursorRun 1 s = [] := by
  induction s using cursorRun.induct 1 with
  | case1 s h => rw [cursorRun]; simp [h]
  | case2 s h ih =>
    rw [cursorRun, dif_neg h]
    rcases s with _ | ⟨a, t⟩
    · simp at h
    · simpa using ih

theorem offsetRun_eq_cursorRun_drop (b : Nat) (S : List Row) (off : Nat) :
    offsetRun b S off = cursorRun b (S.drop off) := by
  induction off using offsetRun.induct b S with
  | case1 off h =>
    rw [offsetRun, dif_pos h, cursorRun, dif_pos h]
  | case2 off h ih =>
    rw [offsetRun, dif_neg h, cursorRun, dif_neg h, ih, List.drop_drop]

theorem offsetRun_eq_cursorRun (b : Nat) (S : List Row) :
    offsetRun b S 0 = cursorRun b S := by
  simpa using offsetRun_eq_cursorRun_drop b S 0

theorem chunks_flatten (b : Nat) (hb : 1 ≤ b) (s : List Row) :
    (chunks b s).flatten = s := by
  induction s using chunks.induct b with
  | case1 s h =>
    rw [List.take_eq_nil_iff] at h
    rcases h with h | h
    · omega
    · rw [h, chunks]
      simp
  | case2 s h ih =>
    rw [chunks, dif_neg h]
    simp [ih]

theorem cursorRun_eq_chunks_tails (b : Nat) (s : List Row) :
    cursorRun b s = ((chunks b s).map List.tail).flatten := by
  induction s using chunks.induct b with
  | case1 s h =>
    rw [chunks, dif_pos h, cursorRun, dif_pos h]
    simp
  | case2 s h ih =>
    rw [chunks, dif_neg h, cursorRun, dif_neg h]
    simp [ih]

theorem cursorRun_length_mul (b : Nat) (hb : 1 ≤ b) :
    ∀ (k : Nat) (s : List Row), s.length = k * b →
      (cursorRun b s).length = k * (b - 1) := by
  intro k
  induction k with
  | zero =>
    intro s hs
    simp only [Nat.zero_mul] at hs
    rw [List.eq_nil_of_length_eq_zero hs, cursorRun_nil]
    simp
  | succ k ih =>
    intro s hs
    have hlen : s.length = k * b + b := by rw [hs, Nat.succ_mul]
    have hne : ¬ s.take b = [] := by
      rw [List.take_eq_nil_iff]
      push_neg
      constructor
      · omega
      · intro hnil
        rw [hnil] at hlen
        simp at hlen
        omega
    rw [cursorRun, dif_neg hne]
    have hdrop : (s.drop b).length = k * b := by
      simp [List.length_drop, hlen]
    have htake : (s.take b).length = b := by
      simp only [List.length_take]
      omega
    rw [List.length_append, List.length_tail, htake, ih _ hdrop, Nat.succ_mul]
    omega

/-! ### Sorted-table lemmas -/

theorem sorted_mkTable (n : Nat) : rowsSorted (mkTable n) := by
  unfold rowsSorted mkTable
  refine List.Pairwise.map mkRow ?_ (List.pairwise_lt_range n)
  intro a c hac
  simp only [mkRow]
  omega

theorem selectLe_sorted (t : List Row) (L : Int) (ht : rowsSorted t) :
    rowsSorted (selectLe t L) :=
  List.Pairwise.filter _ ht

theorem mem_sorted_le_of_getLast (l : List Row) (hs : rowsSorted l) (x : Row)
    (hx : l.getLast? = some x) : ∀ a ∈ l, a.aid ≤ x.aid := by
  obtain ⟨ys, rfl⟩ := List.getLast?_eq_some_iff.mp hx
  unfold rowsSorted at hs
  intro a ha
  rcases List.mem_append.mp ha with h | h
  · exact le_of_lt ((List.pairwise_append.mp hs).2.2 a h x (by simp))
  · simp only [List.mem_singleton] at h
    subst h
    exact le_refl _

theorem sorted_filter_gt (S : List Row) (hS : rowsSorted S) (b : Nat) (x : Row)
    (hx : (S.take b).getLast? = some x) :
    S.filter (fun r => decide (x.aid < r.aid)) = S.drop b := by
  have htake : rowsSorted (S.take b) :=
    List.Pairwise.sublist (List.take_sublist b S) hS
  have hdecomp : (S.take b ++ S.drop b).Pairwise (fun r s => r.aid < s.aid) := by
    rw [List.take_append_drop]
    exact hS
  conv_lhs => rw [← List.take_append_drop b S]
  rw [List.filter_append]
  have h1 : (S.take b).filter (fun r => decide (x.aid < r.aid)) = [] := by
    rw [List.filter_eq_nil_iff]
    intro a ha
    simp only [decide_eq_true_eq, not_lt]
    exact mem_sorted_le_of_getLast _ htake x hx a ha
  have h2 : (S.drop b).filter (fun r => decide (x.aid < r.aid)) = S.drop b := by
    rw [List.filter_eq_self]
    intro a ha
    simp only [decide_eq_true_eq]
    exact (List.pairwise_append.mp hdecomp).2.2 x (List.mem_of_getLast?_eq_some hx) a ha
  rw [h1, h2, List.nil_append]

/-! ### Keyset loop: stall and equivalence with the cursor loop -/

theorem customFuel_spin (t : List Row) (L lid : Int) (b : Nat)
    (h1 : customQuery t L lid b ≠ []) (h2 : (customQuery t L lid b).tail = []) :
    ∀ fuel, customFuel t L b fuel lid = ⟨[], .outOfFuel, lid⟩ := by
  intro fuel
  induction fuel with
  | zero => rfl
  | succ fuel ih =>
    rw [customFuel]
    simp only [if_neg h1, h2]
    simp [ih]

/-- Condition under which the keyset loop of `fetchWithCustomCursor` stalls:
starting from a bounded suffix of `n` remaining rows with batch size `b`, the
loop eventually meets a non-empty batch of exactly one row (whose single row
is consumed by the emptiness check, leaving the watermark unchanged), namely
when `b = 1`, or when the last batch is a one-row remainder. -/
def stallCond (n b : Nat) : Prop :=
  1 ≤ n ∧ (b = 1 ∨ n % b = 1)

instance stallCondDecidable (n b : Nat) : Decidable (stallCond n b) := by
  unfold stallCond
  infer_instance

theorem stallCond_sub (n b : Nat) (hb : 2 ≤ b) (hn : 2 ≤ n) :
    stallCond (n - b) b ↔ stallCond n b := by
  unfold stallCond
  rcases le_or_lt b n with h | h
  · have hmod : (n - b) % b = n % b := by
      conv_rhs => rw [← Nat.sub_add_cancel h]
      rw [Nat.add_mod_right]
    rw [hmod]
    constructor
    · rintro ⟨h1, h2⟩
      exact ⟨by omega, h2⟩
    · rintro ⟨h1, h2⟩
      rcases h2 with h2 | h2
      · omega
      · refine ⟨?_, Or.inr h2⟩
        have hne : n ≠ b := by
          rintro rfl
          simp [Nat.mod_self] at h2
        omega
  · constructor
    · rintro ⟨h1, _⟩
      omega
    · rintro ⟨h1, h2⟩
      rcases h2 with h2 | h2
      · omega
      · rw [Nat.mod_eq_of_lt h] at h2
        omega

/-- Core equivalence: starting `fetchWithCustomCursor` from watermark `lid`
whose remaining bounded suffix is `S`, with enough fuel the rows it ever
writes are exactly the rows the cursor/offset loop writes over `S`, and the
loop reaches its `break` exactly when no one-row batch stalls it. -/
theorem customFuel_written_eq (b : Nat) (hb : 1 ≤ b) (t : List Row) (L : Int)
    (ht : rowsSorted t) :
    ∀ (n : Nat) (lid : Int) (S : List Row),
      t.filter (fun r => decide (lid < r.aid) && decide (r.aid ≤ L)) = S →
      S.length = n →
      ∀ fuel, n + 1 ≤ fuel →
        (customFuel t L b fuel lid).written = cursorRun b S ∧
        ((customFuel t L b fuel lid).status = .done ↔ ¬ stallCond n b) := by
  intro n
  induction n using Nat.strong_induction_on with
  | _ n ih =>
    intro lid S hf hlen fuel hfuel
    obtain ⟨fuel, rfl⟩ : ∃ f, fuel = f + 1 := ⟨fuel - 1, by omega⟩
    have hbatch : customQuery t L lid b = S.take b := by rw [customQuery, hf]
    by_cases hempty : S.take b = []
    · have hS : S = [] := by
        rw [List.take_eq_nil_iff] at hempty
        rcases hempty with h | h
        · omega
        · exact h
      subst hS
      have hn0 : n = 0 := by simpa using hlen.symm
      subst hn0
      rw [customFuel]
      simp only [hbatch]
      rw [if_pos hempty]
      refine ⟨by rw [cursorRun_nil], ?_⟩
      simp [stallCond]
    · have hSne : S ≠ [] := by
        intro h
        rw [h] at hempty
        simp at hempty
      have hn1 : 1 ≤ n := by
        have := List.length_pos.mpr hSne
        omega
      by_cases htail : (S.take b).tail = []
      · have hspin := customFuel_spin t L lid b (by rw [hbatch]; exact hempty)
          (by rw [hbatch]; exact htail) (fuel + 1)
        rw [hspin]
        have hS1 : (S.take b).length = 1 := by
          rcases hne : S.take b with _ | ⟨a, tl⟩
          · exact absurd hne hempty
          · rw [hne] at htail
            simp only [List.tail_cons] at htail
            simp [hne, htail]
        have hbn : b = 1 ∨ S.length = 1 := by
          rw [List.length_take] at hS1
          omega
        constructor
        · show ([] : List Row) = cursorRun b S
          rw [cursorRun, dif_neg hempty, htail, List.nil_append]
          rcases hbn with h | h
          · subst h
            exact (cursorRun_one _).symm
          · have hdn : S.drop b = [] := by
              rw [List.drop_eq_nil_iff]
              omega
            rw [hdn, cursorRun_nil]
        · show (FetchStatus.outOfFuel = FetchStatus.done ↔ ¬ stallCond n b)
          constructor
          · intro h
            simp at h
          · intro h
            exfalso
            apply h
            refine ⟨hn1, ?_⟩
            rcases hbn with h1 | h1
            · exact Or.inl h1
            · by_cases hb1 : b = 1
              · exact Or.inl hb1
              · refine Or.inr ?_
                have : n = 1 := by omega
                subst this
                exact Nat.mod_eq_of_lt (by omega)
      · obtain ⟨x, hx⟩ : ∃ x, (S.take b).tail.getLast? = some x := by
          cases hgl : (S.take b).tail.getLast? with
          | none =>
            rw [List.getLast?_eq_none_iff] at hgl
            exact absurd hgl htail
          | some x => exact ⟨x, rfl⟩
        have hxtake : (S.take b).getLast? = some x := by
          rcases hne : S.take b with _ | ⟨a, tl⟩
          · exact absurd hne hempty
          · rw [hne] at hx
            simp only [List.tail_cons] at hx
            rw [List.getLast?_cons, hx]
            rfl
        have hx_mem : x ∈ S :=
          (List.take_sublist b S).subset (List.mem_of_getLast?_eq_some hxtake)
        have hlt : lid < x.aid := by
          have hmem : x ∈ t.filter (fun r => decide (lid < r.aid) && decide (r.aid ≤ L)) := by
            rw [hf]
            exact hx_mem
          rw [List.mem_filter] at hmem
          have h2 := hmem.2
          simp only [Bool.and_eq_true, decide_eq_true_eq] at h2
          exact h2.1
        have hSsorted : rowsSorted S := by
          rw [← hf]
          exact List.Pairwise.filter _ ht
        have hfilter2 :
            t.filter (fun r => decide (x.aid < r.aid) && decide (r.aid ≤ L)) = S.drop b := by
          have e1 : t.filter
                (fun r => decide (x.aid < r.aid) && (decide (lid < r.aid) && decide (r.aid ≤ L)))
              = t.filter (fun r => decide (x.aid < r.aid) && decide (r.aid ≤ L)) := by
            apply List.filter_congr
            intro r _
            by_cases hA : x.aid < r.aid
            · have hB : lid < r.aid := by omega
              simp [hA, hB]
            · simp [hA]
          have e2 : (t.filter (fun r => decide (lid < r.aid) && decide (r.aid ≤ L))).filter
                (fun r => decide (x.aid < r.aid))
              = t.filter
                (fun r => decide (x.aid < r.aid) && (decide (lid < r.aid) && decide (r.aid ≤ L))) :=
            List.filter_filter _ _
          rw [← e1, ← e2, hf]
          exact sorted_filter_gt S hSsorted b x hxtake
        have hn2 : 2 ≤ (S.take b).length := by
          rcases hne : S.take b with _ | ⟨a, tl⟩
          · exact absurd hne hempty
          · rw [hne] at htail
            simp only [List.tail_cons] at htail
            rcases tl with _ | ⟨c, tl2⟩
            · exact absurd rfl htail
            · simp [hne]
        have hb2 : 2 ≤ b := by
          rw [List.length_take] at hn2
          omega
        have hnn : 2 ≤ n := by
          rw [List.length_take] at hn2
          omega
        have hdroplen : (S.drop b).length = n - b := by
          simp [List.length_drop, hlen]
        have ihres := ih (n - b) (by omega) x.aid (S.drop b) hfilter2 hdroplen fuel (by omega)
        have hunfold : customFuel t L b (fuel + 1) lid =
            ⟨(S.take b).tail ++ (customFuel t L b fuel x.aid).written,
              (customFuel t L b fuel x.aid).status,
              (customFuel t L b fuel x.aid).lastId⟩ := by
          rw [customFuel]
          simp only [hbatch, if_neg hempty, hx]
          rfl
        rw [hunfold]
        constructor
        · show (S.take b).tail ++ (customFuel t L b fuel x.aid).written = cursorRun b S
          rw [cursorRun, dif_neg hempty, ihres.1]
        · show ((customFuel t L b fuel x.aid).status = .done ↔ ¬ stallCond n b)
          rw [ihres.2]
          exact not_congr (stallCond_sub n b hb2 hnn)

theorem customFuel_mem_le (t : List Row) (L : Int) (b : Nat) :
    ∀ (fuel : Nat) (lid : Int) (r : Row),
      r ∈ (customFuel t L b fuel lid).written → r.aid ≤ L := by
  intro fuel
  induction fuel with
  | zero =>
    intro lid r hr
    simp [customFuel] at hr
  | succ fuel ih =>
    intro lid r hr
    by_cases hempty : customQuery t L lid b = []
    · simp [customFuel, if_pos hempty] at hr
    · simp only [customFuel, if_neg hempty, List.mem_append] at hr
      rcases hr with h | h
      · have hq : r ∈ customQuery t L lid b :=
          (List.tail_sublist _).subset h
        unfold customQuery at hq
        have hm := (List.take_sublist _ _).subset hq
        rw [List.mem_filter] at hm
        have h2 := hm.2
        simp only [Bool.and_eq_true, decide_eq_true_eq] at h2
        exact h2.2
      · exact ih _ r h

theorem customFuel_sorted (t : List Row) (L : Int) (b : Nat) (ht : rowsSorted t) :
    ∀ (fuel : Nat) (lid : Int),
      rowsSorted (customFuel t L b fuel lid).written ∧
        ∀ r ∈ (customFuel t L b fuel lid).written, lid < r.aid := by
  intro fuel
  induction fuel with
  | zero =>
    intro lid
    constructor
    · simp [customFuel, rowsSorted]
    · intro r hr
      simp [customFuel] at hr
  | succ fuel ih =>
    intro lid
    by_cases hempty : customQuery t L lid b = []
    · constructor
      · simp [customFuel, if_pos hempty, rowsSorted]
      · intro r hr
        simp [customFuel, if_pos hempty] at hr
    · have hqsorted : rowsSorted (customQuery t L lid b) :=
        List.Pairwise.sublist (List.take_sublist _ _) (List.Pairwise.filter _ ht)
      have hwsorted : rowsSorted (customQuery t L lid b).tail :=
        List.Pairwise.sublist (List.tail_sublist _) hqsorted
      have hmemq : ∀ r ∈ customQuery t L lid b, lid < r.aid ∧ r.aid ≤ L := by
        intro r hr
        unfold customQuery at hr
        have hm := (List.take_sublist _ _).subset hr
        rw [List.mem_filter] at hm
        have h2 := hm.2
        simp only [Bool.and_eq_true, decide_eq_true_eq] at h2
        exact h2
      cases hwe : (customQuery t L lid b).tail.getLast? with
      | none =>
        have hwnil : (customQuery t L lid b).tail = [] := by
          rwa [List.getLast?_eq_none_iff] at hwe
        have hunfold : customFuel t L b (fuel + 1) lid =
            ⟨(customFuel t L b fuel lid).written,
              (customFuel t L b fuel lid).status,
              (customFuel t L b fuel lid).lastId⟩ := by
          rw [customFuel]
          simp only [if_neg hempty, hwnil]
          simp
        rw [hunfold]
        exact ih lid
      | some x =>
        have hunfold : customFuel t L b (fuel + 1) lid =
            ⟨(customQuery t L lid b).tail ++ (customFuel t L b fuel x.aid).written,
              (customFuel t L b fuel x.aid).status,
              (customFuel t L b fuel x.aid).lastId⟩ := by
          rw [customFuel]
          simp only [if_neg hempty, hwe]
          rfl
        rw [hunfold]
        constructor
        · show rowsSorted
            ((customQuery t L lid b).tail ++ (customFuel t L b fuel x.aid).written)
          unfold rowsSorted
          rw [List.pairwise_append]
          refine ⟨hwsorted, (ih x.aid).1, ?_⟩
          intro a ha c hc
          have h1 : a.aid ≤ x.aid := mem_sorted_le_of_getLast _ hwsorted x hwe a ha
          have h2 : x.aid < c.aid := (ih x.aid).2 c hc
          omega
        · intro r hr
          rcases List.mem_append.mp hr with h | h
          · exact (hmemq r ((List.tail_sublist _).subset h)).1
          · have hxq : x ∈ customQuery t L lid b :=
              (List.tail_sublist _).subset (List.mem_of_getLast?_eq_some hwe)
            have h2 : x.aid < r.aid := (ih x.aid).2 r h
            have h3 : lid < x.aid := (hmemq x hxq).1
            omega

/-! ### Scenario table facts -/

theorem mkTable_length (n : Nat) : (mkTable n).length = n := by
  simp [mkTable]

theorem mkTable_succ (n : Nat) : mkTable (n + 1) = mkTable n ++ [mkRow n] := by
  simp [mkTable, List.range_succ]

theorem selectLe_mkTable (n k : Nat) :
    selectLe (mkTable n) (k : Int) = mkTable (min n k) := by
  induction n with
  | zero => simp [selectLe, mkTable]
  | succ n ih =>
    rw [mkTable_succ]
    unfold selectLe at ih ⊢
    rw [List.filter_append, ih]
    by_cases hk : n + 1 ≤ k
    · have hone : [mkRow n].filter (fun r => decide (r.aid ≤ (k : Int))) = [mkRow n] := by
        simp only [List.filter_cons, List.filter_nil]
        rw [if_pos]
        simp only [mkRow, decide_eq_true_eq]
        omega
      rw [hone]
      have h1 : min n k = n := by omega
      have h2 : min (n + 1) k = n + 1 := by omega
      rw [h1, h2, mkTable_succ]
    · have hone : [mkRow n].filter (fun r => decide (r.aid ≤ (k : Int))) = [] := by
        simp only [List.filter_cons, List.filter_nil]
        rw [if_neg]
        simp only [mkRow, decide_eq_true_eq]
        omega
      rw [hone]
      have h1 : min n k = k := by omega
      have h2 : min (n + 1) k = k := by omega
      rw [h1, h2, List.append_nil]

theorem mkTable_pos (n : Nat) : ∀ r ∈ mkTable n, 0 < r.aid := by
  intro r hr
  simp only [mkTable, List.mem_map] at hr
  obtain ⟨i, _, rfl⟩ := hr
  simp [mkRow]

/-- For a table whose keys are all positive (as produced by pgbench), the
first keyset query, issued with the initial watermark `lastId = 0`, returns
an initial segment of the same bounded result set the other strategies scan. -/
theorem filter_pos_selectLe (t : List Row) (L : Int) (hpos : ∀ r ∈ t, 0 < r.aid) :
    t.filter (fun r => decide ((0 : Int) < r.aid) && decide (r.aid ≤ L)) = selectLe t L := by
  unfold selectLe
  apply List.filter_congr
  intro r hr
  simp [hpos r hr]

/-! ### Error and harness model

Each strategy is re-run under a single-fault schedule naming the step at
which the corresponding Go operation fails (file creation, transaction
begin, cursor declaration, the k-th fetch, the scan or CSV write of the
first processed row of the k-th batch, the row-iteration check of the k-th
batch, cursor close, commit).  The model records the `Result` values the
strategy sends on the shared channel, the rows written to its CSV, and the
error value the Go function returns.  Timing text in success messages is
abstracted to a fixed string since wall-clock time is not modelled. -/

/-- Result struct of main.go lines 22-26 (`Type`, `Err`, `Message`). -/
structure GoResult where
  rtype : String
  err : Option String
  message : String
deriving DecidableEq, Repr

def fileWrap (m : String) : String := "error creating file: " ++ m
def beginWrap (m : String) : String := "failed to begin transaction: " ++ m
def declareWrap (m : String) : String := "failed to declare cursor: " ++ m
def fetchWrap (m : String) : String := "failed to fetch data: " ++ m
def scanWrap (m : String) : String := "failed to scan row: " ++ m
def writeWrap (m : String) : String := "error writing record to CSV: " ++ m
def writeWrapNL (m : String) : String := "error writing record to CSV: " ++ m ++ "\n"
def rowsWrap (m : String) : String := "error occurred while iterating rows: " ++ m
def closeWrap (m : String) : String := "failed to close cursor: " ++ m

def cursorDoneMsg : String := "cursor done"
def offsetDoneMsg : String := "offset limit done"
def customDoneMsg : String := "custom cursor done"

/-- Single-fault schedule for `fetchWithCursor`: which fallible operation
(if any) fails, and with what underlying error text. -/
inductive CursorFail where
  | ok
  | create (m : String)
  | beginTx (m : String)
  | declareCur (m : String)
  | fetch (k : Nat) (m : String)
  | scan (k : Nat) (m : String)
  | writeRec (k : Nat) (m : String)
  | rowsIter (k : Nat) (m : String)
  | closeCur (m : String)
  | commit (m : String)
deriving DecidableEq, Repr

def CursorFail.createErr : CursorFail → Option String
  | .create m => some m
  | _ => none

def CursorFail.beginErr : CursorFail → Option String
  | .beginTx m => some m
  | _ => none

def CursorFail.declareErr : CursorFail → Option String
  | .declareCur m => some m
  | _ => none

def CursorFail.closeErr : CursorFail → Option String
  | .closeCur m => some m
  | _ => none

def CursorFail.commitErr : CursorFail → Option String
  | .commit m => some m
  | _ => none

def CursorFail.fetchErrAt : CursorFail → Nat → Option String
  | .fetch k m, k2 => if k = k2 then some m else none
  | _, _ => none

def CursorFail.scanErrAt : CursorFail → Nat → Option String
  | .scan k m, k2 => if k = k2 then some m else none
  | _, _ => none

def CursorFail.writeErrAt : CursorFail → Nat → Option String
  | .writeRec k m, k2 => if k = k2 then some m else none
  | _, _ => none

def CursorFail.rowsErrAt : CursorFail → Nat → Option String
  | .rowsIter k m, k2 => if k = k2 then some m else none
  | _, _ => none

/-- Fetch loop of `fetchWithCursor` (main.go lines 136-187) under a fault
schedule, on the cursor result set `s`, at batch index `k`.  Returns the
rows written to the CSV and the error (already wrapped as by the Go code)
with which the loop aborted, if any. -/
def cursorLoopE (sched : CursorFail) (b : Nat) (s : List Row) (k : Nat) :
    List Row × Option String :=
  match sched.fetchErrAt k with
  | some m => ([], some (fetchWrap m))
  | none =>
    if h : s.take b = [] then ([], none)
    else
      if h2 : (s.take b).tail = [] then
        match sched.rowsErrAt k with
        | some m => ([], some (rowsWrap m))
        | none => cursorLoopE sched b (s.drop b) (k + 1)
      else
        match sched.scanErrAt k with
        | some m => ([], some (scanWrap m))
        | none =>
          match sched.writeErrAt k with
          | some m => ([], some (writeWrap m))
          | none =>
            match sched.rowsErrAt k with
            | some m => ((s.take b).tail, some (rowsWrap m))
            | none =>
              let rest := cursorLoopE sched b (s.drop b) (k + 1)
              ((s.take b).tail ++ rest.1, rest.2)
termination_by s.length
decreasing_by
  all_goals
    rw [List.take_eq_nil_iff] at h
    push_neg at h
    have h3 : s.length ≠ 0 := by
      intro hlen
      exact h.2 (List.eq_nil_of_length_eq_zero hlen)
    simp only [List.length_drop]
    omega

/-- Observable outcome of one strategy run: `Result` values sent on the
shared channel, rows written to its CSV artifact, and the error value the
strategy function returns to its (discarded) caller. -/
structure RunOut where
  sends : List GoResult
  written : List Row
  ret : Option String
deriving DecidableEq, Repr

/-- Run of `fetchWithCursor` (main.go lines 90-209) under a fault schedule,
on cursor result set `S`: file creation, transaction begin, cursor
declaration, the fetch loop, cursor close, then commit.  A commit failure is
only returned (main.go lines 199-208): the success `Result` has already been
built and is sent with `Err = nil` regardless. -/
def cursorRunE (sched : CursorFail) (S : List Row) (b : Nat) : RunOut :=
  match sched.createErr with
  | some m => ⟨[⟨"cursor", some (fileWrap m), ""⟩], [], some (fileWrap m)⟩
  | none =>
  match sched.beginErr with
  | some m => ⟨[⟨"cursor", some (beginWrap m), ""⟩], [], some (beginWrap m)⟩
  | none =>
  match sched.declareErr with
  | some m => ⟨[⟨"cursor", some (declareWrap m), ""⟩], [], some (declareWrap m)⟩
  | none =>
    let loop := cursorLoopE sched b S 0
    match loop.2 with
    | some e => ⟨[⟨"cursor", some e, ""⟩], loop.1, some e⟩
    | none =>
    match sched.closeErr with
    | some m => ⟨[⟨"cursor", some (closeWrap m), ""⟩], loop.1, some (closeWrap m)⟩
    | none =>
    match sched.commitErr with
    | some m => ⟨[⟨"cursor", none, cursorDoneMsg⟩], loop.1, some m⟩
    | none => ⟨[⟨"cursor", none, cursorDoneMsg⟩], loop.1, none⟩

/-- Single-fault schedule for the two client-side pagination strategies. -/
inductive PageFail where
  | ok
  | create (m : String)
  | fetch (k : Nat) (m : String)
  | scan (k : Nat) (m : String)
  | writeRec (k : Nat) (m : String)
  | rowsIter (k : Nat) (m : String)
deriving DecidableEq, Repr

def PageFail.createErr : PageFail → Option String
  | .create m => some m
  | _ => none

def PageFail.fetchErrAt : PageFail → Nat → Option String
  | .fetch k m, k2 => if k = k2 then some m else none
  | _, _ => none

def PageFail.scanErrAt : PageFail → Nat → Option String
  | .scan k m, k2 => if k = k2 then some m else none
  | _, _ => none

def PageFail.writeErrAt : PageFail → Nat → Option String
  | .writeRec k m, k2 => if k = k2 then some m else none
  | _, _ => none

def PageFail.rowsErrAt : PageFail → Nat → Option String
  | .rowsIter k m, k2 => if k = k2 then some m else none
  | _, _ => none

/-- Pagination loop of `fetchWithOffsetLimit` (main.go lines 326-387) under
a fault schedule.  On a CSV write failure the wrapped error built by
`fmt.Errorf` is discarded (main.go line 369) and the raw write error is the
one stored and returned, hence `some m` unwrapped in that branch. -/
def offsetLoopE (sched : PageFail) (b : Nat) (S : List Row) (off k : Nat) :
    List Row × Option String :=
  match sched.fetchErrAt k with
  | some m => ([], some (fetchWrap m))
  | none =>
    if h : (S.drop off).take b = [] then ([], none)
    else
      if h2 : ((S.drop off).take b).tail = [] then
        match sched.rowsErrAt k with
        | some m => ([], some (rowsWrap m))
        | none => offsetLoopE sched b S (off + b) (k + 1)
      else
        match sched.scanErrAt k with
        | some m => ([], some (scanWrap m))
        | none =>
          match sched.writeErrAt k with
          | some m => ([], some m)
          | none =>
            match sched.rowsErrAt k with
            | some m => (((S.drop off).take b).tail, some (rowsWrap m))
            | none =>
              let rest := offsetLoopE sched b S (off + b) (k + 1)
              (((S.drop off).take b).tail ++ rest.1, rest.2)
termination_by S.length - off
decreasing_by
  all_goals
    rw [List.take_eq_nil_iff] at h
    push_neg at h
    have h3 : S.length - off ≠ 0 := by
      intro hlen
      exact h.2 (by simpa [List.drop_eq_nil_iff] using Nat.le_of_sub_eq_zero hlen)
    omega

/-- Run of `fetchWithOffsetLimit` (main.go lines 303-395) under a fault
schedule on the bounded ordered result set `S`. -/
def offsetRunE (sched : PageFail) (S : List Row) (b : Nat) : RunOut :=
  match sched.createErr with
  | some m => ⟨[⟨"offset_limit", some (fileWrap m), ""⟩], [], some (fileWrap m)⟩
  | none =>
    let loop := offsetLoopE sched b S 0 0
    match loop.2 with
    | some e => ⟨[⟨"offset_limit", some e, ""⟩], loop.1, some e⟩
    | none => ⟨[⟨"offset_limit", none, offsetDoneMsg⟩], loop.1, none⟩

/-- Keyset loop of `fetchWithCustomCursor` (main.go lines 231-292) under a
fault schedule, fuel-indexed as `customFuel`.  Returns rows written, the
abort error if any, and whether the loop reached its `break`. -/
def customLoopE (sched : PageFail) (t : List Row) (L : Int) (b : Nat) :
    Nat → Int → Nat → List Row × Option String × FetchStatus
  | 0, _, _ => ([], none, .outOfFuel)
  | fuel + 1, lid, k =>
    match sched.fetchErrAt k with
    | some m => ([], some (fetchWrap m), .done)
    | none =>
      let batch := customQuery t L lid b
      if batch = [] then ([], none, .done)
      else
        if batch.tail = [] then
          match sched.rowsErrAt k with
          | some m => ([], some (rowsWrap m), .done)
          | none => customLoopE sched t L b fuel lid (k + 1)
        else
          match sched.scanErrAt k with
          | some m => ([], some (scanWrap m), .done)
          | none =>
            match sched.writeErrAt k with
            | some m => ([], some (writeWrapNL m), .done)
            | none =>
              match sched.rowsErrAt k with
              | some m => (batch.tail, some (rowsWrap m), .done)
              | none =>
                let lid2 := ((batch.tail.getLast?).map Row.aid).getD lid
                let rest := customLoopE sched t L b fuel lid2 (k + 1)
                (batch.tail ++ rest.1, rest.2.1, rest.2.2)

/-- Observable outcome of a `fetchWithCustomCursor` run; `status` is
`outOfFuel` when the loop was still running when the modelled fuel ran out,
in which case no `Result` has been sent. -/
structure CustomRunOut where
  sends : List GoResult
  written : List Row
  ret : Option String
  status : FetchStatus
deriving DecidableEq, Repr

/-- Run of `fetchWithCustomCursor` (main.go lines 211-301) under a fault
schedule. -/
def customRunE (sched : PageFail) (t : List Row) (L : Int) (b fuel : Nat) :
    CustomRunOut :=
  match sched.createErr with
  | some m => ⟨[⟨"custom_cursor", some (fileWrap m), ""⟩], [], some (fileWrap m), .done⟩
  | none =>
    let loop := customLoopE sched t L b fuel 0 0
    match loop.2.2 with
    | .outOfFuel => ⟨[], loop.1, none, .outOfFuel⟩
    | .done =>
      match loop.2.1 with
      | some e => ⟨[⟨"custom_cursor", some e, ""⟩], loop.1, some e, .done⟩
      | none => ⟨[⟨"custom_cursor", none, customDoneMsg⟩], loop.1, none, .done⟩

/-- Strategies launched by `main` (main.go lines 71-74): `wg.Add(3)` and
three `go` statements; the Bulk Streaming Export strategy of the spec has no
launch site in `src/main.go`. -/
def launchedStrategies : List String :=
  ["cursor", "offset_limit", "custom_cursor"]

/-- Results the harness drains from the single shared channel `errorChan`
(main.go lines 69-87): the `Result` values sent by the three launched
strategies (arrival order between strategies is not modelled; the multiset
of observed results is). -/
def mainSends (sc : CursorFail) (so su : PageFail) (t : List Row) (L : Int)
    (b fuel : Nat) : List GoResult :=
  (cursorRunE sc (selectLe t L) b).sends ++ (offsetRunE so (selectLe t L) b).sends
    ++ (customRunE su t L b fuel).sends

/-- Error value that `fetchWithCursor` stores (wrapped at the point of
origin by `fmt.Errorf`) for each failing step; the commit error is the lone
unwrapped one, returned as-is (main.go line 199/208). -/
def CursorFail.errOf : CursorFail → Option String
  | .ok => none
  | .create m => some (fileWrap m)
  | .beginTx m => some (beginWrap m)
  | .declareCur m => some (declareWrap m)
  | .fetch _ m => some (fetchWrap m)
  | .scan _ m => some (scanWrap m)
  | .writeRec _ m => some (writeWrap m)
  | .rowsIter _ m => some (rowsWrap m)
  | .closeCur m => some (closeWrap m)
  | .commit m => some m

/-- Error value `fetchWithOffsetLimit` stores for each failing step; the CSV
write error is stored unwrapped because the `fmt.Errorf` result is discarded
(main.go line 369). -/
def PageFail.errOfOffset : PageFail → Option String
  | .ok => none
  | .create m => some (fileWrap m)
  | .fetch _ m => some (fetchWrap m)
  | .scan _ m => some (scanWrap m)
  | .writeRec _ m => some m
  | .rowsIter _ m => some (rowsWrap m)

/-- Error value `fetchWithCustomCursor` stores for each failing step (all
wrapped; its CSV write wrapper carries a trailing newline, main.go 275). -/
def PageFail.errOfCustom : PageFail → Option String
  | .ok => none
  | .create m => some (fileWrap m)
  | .fetch _ m => some (fetchWrap m)
  | .scan _ m => some (scanWrap m)
  | .writeRec _ m => some (writeWrapNL m)
  | .rowsIter _ m => some (rowsWrap m)

theorem CursorFail.errOf_fetch {sched : CursorFail} {k : Nat} {m : String}
    (h : sched.fetchErrAt k = some m) : sched.errOf = some (fetchWrap m) := by
  cases sched <;> simp only [CursorFail.fetchErrAt] at h <;> try simp at h
  case fetch k2 m2 =>
    obtain ⟨h1, h2⟩ := h
    subst h2
    rfl

theorem CursorFail.errOf_scan {sched : CursorFail} {k : Nat} {m : String}
    (h : sched.scanErrAt k = some m) : sched.errOf = some (scanWrap m) := by
  cases sched <;> simp only [CursorFail.scanErrAt] at h <;> try simp at h
  case scan k2 m2 =>
    obtain ⟨h1, h2⟩ := h
    subst h2
    rfl

theorem CursorFail.errOf_write {sched : CursorFail} {k : Nat} {m : String}
    (h : sched.writeErrAt k = some m) : sched.errOf = some (writeWrap m) := by
  cases sched <;> simp only [CursorFail.writeErrAt] at h <;> try simp at h
  case writeRec k2 m2 =>
    obtain ⟨h1, h2⟩ := h
    subst h2
    rfl

theorem CursorFail.errOf_rows {sched : CursorFail} {k : Nat} {m : String}
    (h : sched.rowsErrAt k = some m) : sched.errOf = some (rowsWrap m) := by
  cases sched <;> simp only [CursorFail.rowsErrAt] at h <;> try simp at h
  case rowsIter k2 m2 =>
    obtain ⟨h1, h2⟩ := h
    subst h2
    rfl

theorem PageFail.errOfOffset_fetch {sched : PageFail} {k : Nat} {m : String}
    (h : sched.fetchErrAt k = some m) : sched.errOfOffset = some (fetchWrap m) := by
  cases sched <;> simp only [PageFail.fetchErrAt] at h <;> try simp at h
  case fetch k2 m2 =>
    obtain ⟨h1, h2⟩ := h
    subst h2
    rfl

theorem PageFail.errOfOffset_scan {sched : PageFail} {k : Nat} {m : String}
    (h : sched.scanErrAt k = some m) : sched.errOfOffset = some (scanWrap m) := by
  cases sched <;> simp only [PageFail.scanErrAt] at h <;> try simp at h
  case scan k2 m2 =>
    obtain ⟨h1, h2⟩ := h
    subst h2
    rfl

theorem PageFail.errOfOffset_write {sched : PageFail} {k : Nat} {m : String}
    (h : sched.writeErrAt k = some m) : sched.errOfOffset = some m := by
  cases sched <;> simp only [PageFail.writeErrAt] at h <;> try simp at h
  case writeRec k2 m2 =>
    obtain ⟨h1, h2⟩ := h
    subst h2
    rfl

theorem PageFail.errOfOffset_rows {sched : PageFail} {k : Nat} {m : String}
    (h : sched.rowsErrAt k = some m) : sched.errOfOffset = some (rowsWrap m) := by
  cases sched <;> simp only [PageFail.rowsErrAt] at h <;> try simp at h
  case rowsIter k2 m2 =>
    obtain ⟨h1, h2⟩ := h
    subst h2
    rfl

theorem PageFail.errOfCustom_fetch {sched : PageFail} {k : Nat} {m : String}
    (h : sched.fetchErrAt k = some m) : sched.errOfCustom = some (fetchWrap m) := by
  cases sched <;> simp only [PageFail.fetchErrAt] at h <;> try simp at h
  case fetch k2 m2 =>
    obtain ⟨h1, h2⟩ := h
    subst h2
    rfl

theorem PageFail.errOfCustom_scan {sched : PageFail} {k : Nat} {m : String}
    (h : sched.scanErrAt k = some m) : sched.errOfCustom = some (scanWrap m) := by
  cases sched <;> simp only [PageFail.scanErrAt] at h <;> try simp at h
  case scan k2 m2 =>
    obtain ⟨h1, h2⟩ := h
    subst h2
    rfl

theorem PageFail.errOfCustom_write {sched : PageFail} {k : Nat} {m : String}
    (h : sched.writeErrAt k = some m) : sched.errOfCustom = some (writeWrapNL m) := by
  cases sched <;> simp only [PageFail.writeErrAt] at h <;> try simp at h
  case writeRec k2 m2 =>
    obtain ⟨h1, h2⟩ := h
    subst h2
    rfl

theorem PageFail.errOfCustom_rows {sched : PageFail} {k : Nat} {m : String}
    (h : sched.rowsErrAt k = some m) : sched.errOfCustom = some (rowsWrap m) := by
  cases sched <;> simp only [PageFail.rowsErrAt] at h <;> try simp at h
  case rowsIter k2 m2 =>
    obtain ⟨h1, h2⟩ := h
    subst h2
    rfl

theorem cursorLoopE_shape (sched : CursorFail) (b : Nat) :
    ∀ (s : List Row) (k : Nat),
      (cursorLoopE sched b s k).2 = none ∨ (cursorLoopE sched b s k).2 = sched.errOf := by
  intro s k
  induction s, k using cursorLoopE.induct sched b with
  | case1 s k m h =>
    right
    rw [cursorLoopE]
    simp only [h]
    exact (CursorFail.errOf_fetch h).symm
  | case2 s k h1 h2 =>
    left
    rw [cursorLoopE]
    simp [h1, h2]
  | case3 s k h1 h2 h3 m h4 =>
    right
    rw [cursorLoopE]
    simp only [h1, dif_neg h2, dif_pos h3, h4]
    exact (CursorFail.errOf_rows h4).symm
  | case4 s k h1 h2 h3 h4 ih =>
    rw [cursorLoopE]
    simp only [h1, dif_neg h2, dif_pos h3, h4]
    exact ih
  | case5 s k h1 h2 h3 m h4 =>
    right
    rw [cursorLoopE]
    simp only [h1, dif_neg h2, dif_neg h3, h4]
    exact (CursorFail.errOf_scan h4).symm
  | case6 s k h1 h2 h3 h4 m h5 =>
    right
    rw [cursorLoopE]
    simp only [h1, dif_neg h2, dif_neg h3, h4, h5]
    exact (CursorFail.errOf_write h5).symm
  | case7 s k h1 h2 h3 h4 h5 m h6 =>
    right
    rw [cursorLoopE]
    simp only [h1, dif_neg h2, dif_neg h3, h4, h5, h6]
    exact (CursorFail.errOf_rows h6).symm
  | case8 s k h1 h2 h3 h4 h5 h6 ih =>
    rw [cursorLoopE]
    simp only [h1, dif_neg h2, dif_neg h3, h4, h5, h6]
    exact ih

theorem cursorLoopE_none (sched : CursorFail) (b : Nat)
    (h1 : ∀ k, sched.fetchErrAt k = none) (h2 : ∀ k, sched.scanErrAt k = none)
    (h3 : ∀ k, sched.writeErrAt k = none) (h4 : ∀ k, sched.rowsErrAt k = none) :
    ∀ (s : List Row) (k : Nat), (cursorLoopE sched b s k).2 = none := by
  intro s k
  induction s, k using cursorLoopE.induct sched b with
  | case1 s k m h =>
    rw [h1] at h
    exact absurd h (by simp)
  | case2 s k ha hb =>
    rw [cursorLoopE]
    simp [ha, hb]
  | case3 s k ha hb hc m hd =>
    rw [h4] at hd
    exact absurd hd (by simp)
  | case4 s k ha hb hc hd ih =>
    rw [cursorLoopE]
    simp only [ha, dif_neg hb, dif_pos hc, hd]
    exact ih
  | case5 s k ha hb hc m hd =>
    rw [h2] at hd
    exact absurd hd (by simp)
  | case6 s k ha hb hc hd m he =>
    rw [h3] at he
    exact absurd he (by simp)
  | case7 s k ha hb hc hd he m hf =>
    rw [h4] at hf
    exact absurd hf (by simp)
  | case8 s k ha hb hc hd he hf ih =>
    rw [cursorLoopE]
    simp only [ha, dif_neg hb, dif_neg hc, hd, he, hf]
    exact ih

theorem offsetLoopE_shape (sched : PageFail) (b : Nat) (S : List Row) :
    ∀ (off k : Nat),
      (offsetLoopE sched b S off k).2 = none ∨
        (offsetLoopE sched b S off k).2 = sched.errOfOffset := by
  intro off k
  induction off, k using offsetLoopE.induct sched b S with
  | case1 off k m h =>
    right
    rw [offsetLoopE]
    simp only [h]
    exact (PageFail.errOfOffset_fetch h).symm
  | case2 off k h1 h2 =>
    left
    rw [offsetLoopE]
    simp [h1, h2]
  | case3 off k h1 h2 h3 m h4 =>
    right
    rw [offsetLoopE]
    simp only [h1, dif_neg h2, dif_pos h3, h4]
    exact (PageFail.errOfOffset_rows h4).symm
  | case4 off k h1 h2 h3 h4 ih =>
    rw [offsetLoopE]
    simp only [h1, dif_neg h2, dif_pos h3, h4]
    exact ih
  | case5 off k h1 h2 h3 m h4 =>
    right
    rw [offsetLoopE]
    simp only [h1, dif_neg h2, dif_neg h3, h4]
    exact (PageFail.errOfOffset_scan h4).symm
  | case6 off k h1 h2 h3 h4 m h5 =>
    right
    rw [offsetLoopE]
    simp only [h1, dif_neg h2, dif_neg h3, h4, h5]
    exact (PageFail.errOfOffset_write h5).symm
  | case7 off k h1 h2 h3 h4 h5 m h6 =>
    right
    rw [offsetLoopE]
    simp only [h1, dif_neg h2, dif_neg h3, h4, h5, h6]
    exact (PageFail.errOfOffset_rows h6).symm
  | case8 off k h1 h2 h3 h4 h5 h6 ih =>
    rw [offsetLoopE]
    simp only [h1, dif_neg h2, dif_neg h3, h4, h5, h6]
    exact ih

theorem customLoopE_shape (sched : PageFail) (t : List Row) (L : Int) (b : Nat) :
    ∀ (fuel : Nat) (lid : Int) (k : Nat),
      (customLoopE sched t L b fuel lid k).2.1 = none ∨
        (customLoopE sched t L b fuel lid k).2.1 = sched.errOfCustom := by
  intro fuel lid k
  induction fuel, lid, k using customLoopE.induct sched t L b with
  | case1 lid k =>
    left
    rfl
  | case2 fuel lid k m h =>
    right
    rw [customLoopE]
    simp only [h]
    exact (PageFail.errOfCustom_fetch h).symm
  | case3 fuel lid k h1 batch hbe =>
    have hbe2 : customQuery t L lid b = [] := hbe
    left
    rw [customLoopE]
    simp only [h1]
    simp [hbe2]
  | case4 fuel lid k h1 batch hne htl m h4 =>
    have hne2 : ¬ customQuery t L lid b = [] := hne
    have htl2 : (customQuery t L lid b).tail = [] := htl
    right
    rw [customLoopE]
    simp only [h1, if_neg hne2, htl2, if_pos rfl, h4]
    exact (PageFail.errOfCustom_rows h4).symm
  | case5 fuel lid k h1 batch hne htl h4 ih =>
    have hne2 : ¬ customQuery t L lid b = [] := hne
    have htl2 : (customQuery t L lid b).tail = [] := htl
    rw [customLoopE]
    simp only [h1, if_neg hne2, htl2, if_pos rfl, h4]
    exact ih
  | case6 fuel lid k h1 batch hne htl m h4 =>
    have hne2 : ¬ customQuery t L lid b = [] := hne
    have htl2 : ¬ (customQuery t L lid b).tail = [] := htl
    right
    rw [customLoopE]
    simp only [h1, if_neg hne2, if_neg htl2, h4]
    exact (PageFail.errOfCustom_scan h4).symm
  | case7 fuel lid k h1 batch hne htl h4 m h5 =>
    have hne2 : ¬ customQuery t L lid b = [] := hne
    have htl2 : ¬ (customQuery t L lid b).tail = [] := htl
    right
    rw [customLoopE]
    simp only [h1, if_neg hne2, if_neg htl2, h4, h5]
    exact (PageFail.errOfCustom_write h5).symm
  | case8 fuel lid k h1 batch hne htl h4 h5 m h6 =>
    have hne2 : ¬ customQuery t L lid b = [] := hne
    have htl2 : ¬ (customQuery t L lid b).tail = [] := htl
    right
    rw [customLoopE]
    simp only [h1, if_neg hne2, if_neg htl2, h4, h5, h6]
    exact (PageFail.errOfCustom_rows h6).symm
  | case9 fuel lid k h1 batch hne htl h4 h5 h6 lid2 ih =>
    have hne2 : ¬ customQuery t L lid b = [] := hne
    have htl2 : ¬ (customQuery t L lid b).tail = [] := htl
    rw [customLoopE]
    simp only [h1, if_neg hne2, if_neg htl2, h4, h5, h6]
    exact ih

theorem customLoopE_spin (t : List Row) (L lid : Int) (b : Nat)
    (h1 : customQuery t L lid b ≠ []) (h2 : (customQuery t L lid b).tail = []) :
    ∀ (fuel k : Nat), customLoopE .ok t L b fuel lid k = ([], none, .outOfFuel) := by
  intro fuel
  induction fuel with
  | zero =>
    intro k
    rfl
  | succ fuel ih =>
    intro k
    rw [customLoopE]
    simp only [PageFail.fetchErrAt, if_neg h1, h2, PageFail.rowsErrAt]
    simp [ih]

/-- Anatomy of a `fetchWithCursor` run: exactly one `Result` is sent on
every schedule; its error field equals the returned error except when the
failing step is the commit, in which case the `Result` carries no error and
the commit error is only returned; whatever error there is, it is the one
the failing step stores. -/
theorem cursorRunE_anatomy (sched : CursorFail) (S : List Row) (b : Nat) :
    ∃ r : GoResult, (cursorRunE sched S b).sends = [r] ∧ r.rtype = "cursor" ∧
      ((∀ m, sched ≠ .commit m) → r.err = (cursorRunE sched S b).ret) ∧
      (∀ m, sched = .commit m → r.err = none ∧ (cursorRunE sched S b).ret = some m) ∧
      ((cursorRunE sched S b).ret = none ∨ (cursorRunE sched S b).ret = sched.errOf) := by
  cases sched with
  | ok =>
    have hloop : (cursorLoopE .ok b S 0).2 = none :=
      cursorLoopE_none CursorFail.ok b (fun _ => rfl) (fun _ => rfl) (fun _ => rfl)
        (fun _ => rfl) S 0
    refine ⟨⟨"cursor", none, cursorDoneMsg⟩, ?_⟩
    rw [cursorRunE]
    simp only [CursorFail.createErr, CursorFail.beginErr, CursorFail.declareErr,
      CursorFail.closeErr, CursorFail.commitErr, hloop]
    simp
  | create m =>
    refine ⟨⟨"cursor", some (fileWrap m), ""⟩, ?_⟩
    rw [cursorRunE]
    simp [CursorFail.createErr, CursorFail.errOf]
  | beginTx m =>
    refine ⟨⟨"cursor", some (beginWrap m), ""⟩, ?_⟩
    rw [cursorRunE]
    simp [CursorFail.createErr, CursorFail.beginErr, CursorFail.errOf]
  | declareCur m =>
    refine ⟨⟨"cursor", some (declareWrap m), ""⟩, ?_⟩
    rw [cursorRunE]
    simp [CursorFail.createErr, CursorFail.beginErr, CursorFail.declareErr,
      CursorFail.errOf]
  | fetch k m =>
    rcases cursorLoopE_shape (.fetch k m) b S 0 with h | h
    · refine ⟨⟨"cursor", none, cursorDoneMsg⟩, ?_⟩
      rw [cursorRunE]
      simp only [CursorFail.createErr, CursorFail.beginErr, CursorFail.declareErr,
        CursorFail.closeErr, CursorFail.commitErr, h]
      simp
    · refine ⟨⟨"cursor", some (fetchWrap m), ""⟩, ?_⟩
      rw [cursorRunE]
      simp only [CursorFail.createErr, CursorFail.beginErr, CursorFail.declareErr, h,
        CursorFail.errOf]
      simp [CursorFail.errOf]
  | scan k m =>
    rcases cursorLoopE_shape (.scan k m) b S 0 with h | h
    · refine ⟨⟨"cursor", none, cursorDoneMsg⟩, ?_⟩
      rw [cursorRunE]
      simp only [CursorFail.createErr, CursorFail.beginErr, CursorFail.declareErr,
        CursorFail.closeErr, CursorFail.commitErr, h]
      simp
    · refine ⟨⟨"cursor", some (scanWrap m), ""⟩, ?_⟩
      rw [cursorRunE]
      simp only [CursorFail.createErr, CursorFail.beginErr, CursorFail.declareErr, h,
        CursorFail.errOf]
      simp [CursorFail.errOf]
  | writeRec k m =>
    rcases cursorLoopE_shape (.writeRec k m) b S 0 with h | h
    · refine ⟨⟨"cursor", none, cursorDoneMsg⟩, ?_⟩
      rw [cursorRunE]
      simp only [CursorFail.createErr, CursorFail.beginErr, CursorFail.declareErr,
        CursorFail.closeErr, CursorFail.commitErr, h]
      simp
    · refine ⟨⟨"cursor", some (writeWrap m), ""⟩, ?_⟩
      rw [cursorRunE]
      simp only [CursorFail.createErr, CursorFail.beginErr, CursorFail.declareErr, h,
        CursorFail.errOf]
      simp [CursorFail.errOf]
  | rowsIter k m =>
    rcases cursorLoopE_shape (.rowsIter k m) b S 0 with h | h
    · refine ⟨⟨"cursor", none, cursorDoneMsg⟩, ?_⟩
      rw [cursorRunE]
      simp only [CursorFail.createErr, CursorFail.beginErr, CursorFail.declareErr,
        CursorFail.closeErr, CursorFail.commitErr, h]
      simp
    · refine ⟨⟨"cursor", some (rowsWrap m), ""⟩, ?_⟩
      rw [cursorRunE]
      simp only [CursorFail.createErr, CursorFail.beginErr, CursorFail.declareErr, h,
        CursorFail.errOf]
      simp [CursorFail.errOf]
  | closeCur m =>
    rcases cursorLoopE_shape (.closeCur m) b S 0 with h | h
    · refine ⟨⟨"cursor", some (closeWrap m), ""⟩, ?_⟩
      rw [cursorRunE]
      simp only [CursorFail.createErr, CursorFail.beginErr, CursorFail.declareErr,
        CursorFail.closeErr, h]
      simp [CursorFail.errOf]
    · refine ⟨⟨"cursor", some (closeWrap m), ""⟩, ?_⟩
      rw [cursorRunE]
      simp only [CursorFail.createErr, CursorFail.beginErr, CursorFail.declareErr, h,
        CursorFail.errOf]
      simp [CursorFail.errOf]
  | commit m =>
    have hloop : (cursorLoopE (.commit m) b S 0).2 = none :=
      cursorLoopE_none (CursorFail.commit m) b (fun _ => rfl) (fun _ => rfl) (fun _ => rfl)
        (fun _ => rfl) S 0
    refine ⟨⟨"cursor", none, cursorDoneMsg⟩, ?_⟩
    rw [cursorRunE]
    simp only [CursorFail.createErr, CursorFail.beginErr, CursorFail.declareErr,
      CursorFail.closeErr, CursorFail.commitErr, hloop]
    simp [CursorFail.errOf]

/-- Anatomy of a `fetchWithOffsetLimit` run: exactly one `Result` is sent on
every schedule, its error field always equals the returned error, and that
error (when present) is the one the failing step stores - for the CSV write
step, the raw unwrapped error. -/
theorem offsetRunE_anatomy (sched : PageFail) (S : List Row) (b : Nat) :
    ∃ r : GoResult, (offsetRunE sched S b).sends = [r] ∧ r.rtype = "offset_limit" ∧
      r.err = (offsetRunE sched S b).ret ∧
      ((offsetRunE sched S b).ret = none ∨ (offsetRunE sched S b).ret = sched.errOfOffset) := by
  cases sched with
  | ok =>
    have hn : (offsetLoopE .ok b S 0 0).2 = none := by
      rcases offsetLoopE_shape .ok b S 0 0 with h | h
      · exact h
      · simpa [PageFail.errOfOffset] using h
    refine ⟨⟨"offset_limit", none, offsetDoneMsg⟩, ?_⟩
    rw [offsetRunE]
    simp only [PageFail.createErr, hn]
    simp
  | create m =>
    refine ⟨⟨"offset_limit", some (fileWrap m), ""⟩, ?_⟩
    rw [offsetRunE]
    simp [PageFail.createErr, PageFail.errOfOffset]
  | fetch k m =>
    rcases offsetLoopE_shape (.fetch k m) b S 0 0 with h | h
    · refine ⟨⟨"offset_limit", none, offsetDoneMsg⟩, ?_⟩
      rw [offsetRunE]
      simp only [PageFail.createErr, h]
      simp
    · refine ⟨⟨"offset_limit", some (fetchWrap m), ""⟩, ?_⟩
      rw [offsetRunE]
      simp only [PageFail.createErr, h, PageFail.errOfOffset]
      simp [PageFail.errOfOffset]
  | scan k m =>
    rcases offsetLoopE_shape (.scan k m) b S 0 0 with h | h
    · refine ⟨⟨"offset_limit", none, offsetDoneMsg⟩, ?_⟩
      rw [offsetRunE]
      simp only [PageFail.createErr, h]
      simp
    · refine ⟨⟨"offset_limit", some (scanWrap m), ""⟩, ?_⟩
      rw [offsetRunE]
      simp only [PageFail.createErr, h, PageFail.errOfOffset]
      simp [PageFail.errOfOffset]
  | writeRec k m =>
    rcases offsetLoopE_shape (.writeRec k m) b S 0 0 with h | h
    · refine ⟨⟨"offset_limit", none, offsetDoneMsg⟩, ?_⟩
      rw [offsetRunE]
      simp only [PageFail.createErr, h]
      simp
    · refine ⟨⟨"offset_limit", some m, ""⟩, ?_⟩
      rw [offsetRunE]
      simp only [PageFail.createErr, h, PageFail.errOfOffset]
      simp [PageFail.errOfOffset]
  | rowsIter k m =>
    rcases offsetLoopE_shape (.rowsIter k m) b S 0 0 with h | h
    · refine ⟨⟨"offset_limit", none, offsetDoneMsg⟩, ?_⟩
      rw [offsetRunE]
      simp only [PageFail.createErr, h]
      simp
    · refine ⟨⟨"offset_limit", some (rowsWrap m), ""⟩, ?_⟩
      rw [offsetRunE]
      simp only [PageFail.createErr, h, PageFail.errOfOffset]
      simp [PageFail.errOfOffset]

/-- Anatomy of a `fetchWithCustomCursor` run: when the loop finishes (or a
step fails) exactly one `Result` is sent, its error equals the returned
error and is the failing step's wrapped error; while the loop is still
running (out of fuel) nothing has been sent. -/
theorem customRunE_anatomy (sched : PageFail) (t : List Row) (L : Int) (b fuel : Nat) :
    ((customRunE sched t L b fuel).status = .done →
      ∃ r : GoResult, (customRunE sched t L b fuel).sends = [r] ∧
        r.rtype = "custom_cursor" ∧ r.err = (customRunE sched t L b fuel).ret ∧
        ((customRunE sched t L b fuel).ret = none ∨
          (customRunE sched t L b fuel).ret = sched.errOfCustom)) ∧
    ((customRunE sched t L b fuel).status = .outOfFuel →
      (customRunE sched t L b fuel).sends = [] ∧ (customRunE sched t L b fuel).ret = none) := by
  cases hc : sched.createErr with
  | some m =>
    have hsched : sched = .create m := by
      cases sched <;> simp [PageFail.createErr] at hc
      subst hc
      rfl
    subst hsched
    constructor
    · intro _
      refine ⟨⟨"custom_cursor", some (fileWrap m), ""⟩, ?_⟩
      rw [customRunE]
      simp [PageFail.createErr, PageFail.errOfCustom]
    · intro h
      rw [customRunE] at h
      simp [PageFail.createErr] at h
  | none =>
    cases hst : (customLoopE sched t L b fuel 0 0).2.2 with
    | done =>
      cases herr : (customLoopE sched t L b fuel 0 0).2.1 with
      | none =>
        constructor
        · intro _
          refine ⟨⟨"custom_cursor", none, customDoneMsg⟩, ?_⟩
          rw [customRunE]
          simp only [hc, hst, herr]
          simp
        · intro h
          rw [customRunE] at h
          simp only [hc, hst, herr] at h
          simp at h
      | some e =>
        have heof : some e = sched.errOfCustom := by
          rcases customLoopE_shape sched t L b fuel 0 0 with h | h
          · rw [herr] at h
            exact absurd h (by simp)
          · rw [← herr, h]
        constructor
        · intro _
          refine ⟨⟨"custom_cursor", some e, ""⟩, ?_⟩
          rw [customRunE]
          simp only [hc, hst, herr]
          simp [heof.symm]
        · intro h
          rw [customRunE] at h
          simp only [hc, hst, herr] at h
          simp at h
    | outOfFuel =>
      constructor
      · intro h
        rw [customRunE] at h
        simp only [hc, hst] at h
        simp at h
      · intro _
        rw [customRunE]
        simp only [hc, hst]
        simp

/-! ### Claim theorems -/

theorem mem_selectLe_le (t : List Row) (L : Int) (r : Row)
    (h : r ∈ selectLe t L) : r.aid ≤ L := by
  unfold selectLe at h
  rw [List.mem_filter] at h
  simpa using h.2

/-- Property that the keyset loop of `fetchWithCustomCursor`, started at
watermark 0, never reaches its `break` however long it runs, writes nothing,
and leaves the watermark at 0. -/
def keysetSpins (t : List Row) (L : Int) (b : Nat) : Prop :=
  ∀ fuel, customFuel t L b fuel 0 = ⟨[], .outOfFuel, 0⟩

/-- Claim C4 (code bug): with batchSize = 1 the offset/limit strategy does
terminate but writes zero rows (each one-row batch is consumed whole by the
emptiness check), and the keyset strategy never terminates on a non-empty
range: its sole fetched row is consumed by the emptiness check, the
watermark never advances, and the identical query repeats forever.  The
claim that both terminate and produce the full ordered set fails on the
three-row table keyed 1..3 with limit 3. -/
theorem claim_C4_batch_one_eval :
    offsetRun 1 (selectLe [⟨1, 1, 0⟩, ⟨2, 1, 0⟩, ⟨3, 1, 0⟩] 3) 0 = [] ∧
    cursorRun 1 (selectLe [⟨1, 1, 0⟩, ⟨2, 1, 0⟩, ⟨3, 1, 0⟩] 3) = [] ∧
    keysetSpins [⟨1, 1, 0⟩, ⟨2, 1, 0⟩, ⟨3, 1, 0⟩] 3 1 := by
  refine ⟨?_, cursorRun_one _, ?_⟩
  · rw [offsetRun_eq_cursorRun]
    exact cursorRun_one _
  · intro fuel
    exact customFuel_spin [⟨1, 1, 0⟩, ⟨2, 1, 0⟩, ⟨3, 1, 0⟩] 3 0 1
      (by decide) (by decide) fuel

/-- Claim C10 (confirmed): in every implemented strategy the first row of
each non-empty batch is consumed by the `if !rows.Next()` emptiness check
and never written: the cursor and offset/limit outputs are exactly the
concatenated tails of the consecutive batches (whose concatenation is the
full bounded result set), and in the keyset strategy a one-row batch leaves
the `lastId` watermark unchanged, so nothing is ever written past it and
the loop never finishes. -/
theorem claim_C10_first_of_batch_dropped :
    ∀ (b : Nat) (s : List Row), 1 ≤ b →
      (cursorRun b s = ((chunks b s).map List.tail).flatten ∧
        offsetRun b s 0 = ((chunks b s).map List.tail).flatten ∧
        (chunks b s).flatten = s) ∧
      (∀ (t : List Row) (L lid : Int) (fuel : Nat),
        (customQuery t L lid b).length = 1 →
          customFuel t L b fuel lid = ⟨[], .outOfFuel, lid⟩) := by
  intro b s hb
  constructor
  · refine ⟨cursorRun_eq_chunks_tails b s, ?_, chunks_flatten b hb s⟩
    rw [offsetRun_eq_cursorRun]
    exact cursorRun_eq_chunks_tails b s
  · intro t L lid fuel hlen
    obtain ⟨a, ha⟩ := List.length_eq_one.mp hlen
    exact customFuel_spin t L lid b (by rw [ha]; simp) (by rw [ha]; rfl) fuel

theorem claim_C10_witness :
    1 ≤ 2 ∧
    cursorRun 2 [⟨1, 1, 0⟩, ⟨2, 1, 0⟩, ⟨3, 1, 0⟩] =
      ((chunks 2 [⟨1, 1, 0⟩, ⟨2, 1, 0⟩, ⟨3, 1, 0⟩]).map List.tail).flatten ∧
    (customQuery [⟨1, 1, 0⟩] 1 0 2).length = 1 ∧
    customFuel [⟨1, 1, 0⟩] 1 2 5 0 = ⟨[], .outOfFuel, 0⟩ :=
  ⟨by decide,
    ((claim_C10_first_of_batch_dropped 2 [⟨1, 1, 0⟩, ⟨2, 1, 0⟩, ⟨3, 1, 0⟩]
      (by decide)).1).1,
    by decide,
    (claim_C10_first_of_batch_dropped 2 [⟨1, 1, 0⟩, ⟨2, 1, 0⟩, ⟨3, 1, 0⟩]
      (by decide)).2 [⟨1, 1, 0⟩] 1 0 5 (by decide)⟩

/-- Claim C8 (confirmed): every row any strategy writes to its artifact has
primary key at most the configured limit - for the three implemented
strategies and for the spec-modelled bulk streaming export. -/
theorem claim_C8_bound_invariant :
    ∀ (t : List Row) (L : Int) (b fuel : Nat) (r : Row),
      (r ∈ cursorRun b (selectLe t L) → r.aid ≤ L) ∧
      (r ∈ offsetRun b (selectLe t L) 0 → r.aid ≤ L) ∧
      (r ∈ (customFuel t L b fuel 0).written → r.aid ≤ L) ∧
      (r ∈ copyRun t L → r.aid ≤ L) := by
  intro t L b fuel r
  refine ⟨?_, ?_, ?_, ?_⟩
  · intro h
    exact mem_selectLe_le t L r ((cursorRun_sublist b _).subset h)
  · intro h
    rw [offsetRun_eq_cursorRun] at h
    exact mem_selectLe_le t L r ((cursorRun_sublist b _).subset h)
  · exact customFuel_mem_le t L b fuel 0 r
  · exact mem_selectLe_le t L r

theorem claim_C8_witness :
    (⟨2, 1, 0⟩ : Row) ∈ cursorRun 2 (selectLe [⟨1, 1, 0⟩, ⟨2, 1, 0⟩] 2) ∧
    (⟨2, 1, 0⟩ : Row).aid ≤ 2 := by
  have hmem : (⟨2, 1, 0⟩ : Row) ∈ cursorRun 2 (selectLe [⟨1, 1, 0⟩, ⟨2, 1, 0⟩] 2) := by
    simp [cursorRun, selectLe]
  exact ⟨hmem, (claim_C8_bound_invariant [⟨1, 1, 0⟩, ⟨2, 1, 0⟩] 2 2 3 ⟨2, 1, 0⟩).1 hmem⟩

/-- Claim C9 (confirmed): for a table enumerated in ascending primary-key
order, the sequence of primary keys each strategy writes to its artifact is
strictly ascending - for the three implemented strategies and for the
spec-modelled bulk streaming export. -/
theorem claim_C9_order_invariant :
    ∀ (t : List Row) (L : Int) (b fuel : Nat), rowsSorted t →
      rowsSorted (cursorRun b (selectLe t L)) ∧
      rowsSorted (offsetRun b (selectLe t L) 0) ∧
      rowsSorted ((customFuel t L b fuel 0).written) ∧
      rowsSorted (copyRun t L) := by
  intro t L b fuel ht
  have hsel : rowsSorted (selectLe t L) := selectLe_sorted t L ht
  refine ⟨?_, ?_, ?_, hsel⟩
  · exact List.Pairwise.sublist (cursorRun_sublist b _) hsel
  · rw [offsetRun_eq_cursorRun]
    exact List.Pairwise.sublist (cursorRun_sublist b _) hsel
  · exact (customFuel_sorted t L b ht fuel 0).1

theorem claim_C9_witness :
    rowsSorted [⟨1, 1, 0⟩, ⟨2, 1, 0⟩, ⟨3, 1, 0⟩] ∧
    rowsSorted (cursorRun 2 (selectLe [⟨1, 1, 0⟩, ⟨2, 1, 0⟩, ⟨3, 1, 0⟩] 3)) := by
  have hs : rowsSorted [⟨1, 1, 0⟩, ⟨2, 1, 0⟩, ⟨3, 1, 0⟩] := by
    unfold rowsSorted
    simp
  exact ⟨hs, (claim_C9_order_invariant [⟨1, 1, 0⟩, ⟨2, 1, 0⟩, ⟨3, 1, 0⟩] 3 2 5 hs).1⟩

/-- Claim C3 counterexample: on the two-row table keyed 1..2 with
limit = 2 and batchSize = 2, the (spec-modelled) bulk streaming export
emits both rows while the cursor strategy emits only one (its batch head is
consumed by the emptiness check), so the row sets of all strategies are not
identical. -/
theorem claim_C3_counterexample :
    (copyRun [⟨1, 1, 0⟩, ⟨2, 1, 0⟩] 2).length = 2 ∧
    (cursorRun 2 (selectLe [⟨1, 1, 0⟩, ⟨2, 1, 0⟩] 2)).length = 1 := by
  constructor
  · decide
  · simp [cursorRun, selectLe]

/-- Claim C3 amended (the three implemented batch strategies do agree): for
every batch size, limit, and unchanging table enumerated in ascending
order with positive keys, the cursor and offset/limit strategies write the
same row sequence, the keyset strategy ever writes exactly that same
sequence (given fuel past the point where it either finishes or stalls),
and the spec-modelled bulk export writes the full bounded result set -
which is what the others drop batch heads from. -/
theorem claim_C3_batch_strategies_agree :
    ∀ (t : List Row) (L : Int) (b fuel : Nat), 1 ≤ b → rowsSorted t →
      (∀ r ∈ t, 0 < r.aid) → (selectLe t L).length + 1 ≤ fuel →
      offsetRun b (selectLe t L) 0 = cursorRun b (selectLe t L) ∧
      (customFuel t L b fuel 0).written = cursorRun b (selectLe t L) ∧
      copyRun t L = selectLe t L := by
  intro t L b fuel hb ht hpos hfuel
  refine ⟨offsetRun_eq_cursorRun b _, ?_, rfl⟩
  exact (customFuel_written_eq b hb t L ht (selectLe t L).length 0 (selectLe t L)
    (filter_pos_selectLe t L hpos) rfl fuel hfuel).1

theorem claim_C3_witness :
    (1 ≤ 2 ∧ rowsSorted [⟨1, 1, 0⟩, ⟨2, 1, 0⟩, ⟨3, 1, 0⟩] ∧
      (∀ r ∈ [(⟨1, 1, 0⟩ : Row), ⟨2, 1, 0⟩, ⟨3, 1, 0⟩], 0 < r.aid) ∧
      (selectLe [⟨1, 1, 0⟩, ⟨2, 1, 0⟩, ⟨3, 1, 0⟩] 3).length + 1 ≤ 4) ∧
    (customFuel [⟨1, 1, 0⟩, ⟨2, 1, 0⟩, ⟨3, 1, 0⟩] 3 2 4 0).written =
      cursorRun 2 (selectLe [⟨1, 1, 0⟩, ⟨2, 1, 0⟩, ⟨3, 1, 0⟩] 3) := by
  have hs : rowsSorted [⟨1, 1, 0⟩, ⟨2, 1, 0⟩, ⟨3, 1, 0⟩] := by
    unfold rowsSorted
    simp
  refine ⟨⟨by decide, hs, by decide, by decide⟩, ?_⟩
  exact (claim_C3_batch_strategies_agree [⟨1, 1, 0⟩, ⟨2, 1, 0⟩, ⟨3, 1, 0⟩] 3 2 4
    (by decide) hs (by decide) (by decide)).2.1

/-- Claim C1 (code bug): in the scenario limit = 5000, batchSize = 500,
table keyed 1..10000, every implemented strategy writes 4990 rows, not the
claimed 5000: the first row of each of the 10 batches (keys 1, 501, ...,
4501) is consumed by the `if !rows.Next()` emptiness check and never
written.  The keyset strategy does reach its `break` here (no one-row
batch occurs). -/
theorem claim_C1_scenario_eval :
    (cursorRun 500 (selectLe (mkTable 10000) 5000)).length = 4990 ∧
    (offsetRun 500 (selectLe (mkTable 10000) 5000) 0).length = 4990 ∧
    (customFuel (mkTable 10000) 5000 500 5001 0).written.length = 4990 ∧
    (customFuel (mkTable 10000) 5000 500 5001 0).status = .done := by
  have hsel : selectLe (mkTable 10000) (5000 : Int) = mkTable 5000 := by
    have h := selectLe_mkTable 10000 5000
    norm_num at h
    exact_mod_cast h
  have hlen : (mkTable 5000).length = 10 * 500 := by
    rw [mkTable_length]
  have hcur : (cursorRun 500 (mkTable 5000)).length = 4990 := by
    rw [cursorRun_length_mul 500 (by omega) 10 (mkTable 5000) hlen]
  have hfilter : (mkTable 10000).filter
      (fun r => decide ((0 : Int) < r.aid) && decide (r.aid ≤ (5000 : Int))) =
      mkTable 5000 := by
    rw [filter_pos_selectLe (mkTable 10000) 5000 (mkTable_pos 10000), hsel]
  have hmain := customFuel_written_eq 500 (by omega) (mkTable 10000) 5000
    (sorted_mkTable 10000) 5000 0 (mkTable 5000) hfilter (mkTable_length 5000)
    5001 (by omega)
  refine ⟨?_, ?_, ?_, ?_⟩
  · rw [hsel, hcur]
  · rw [offsetRun_eq_cursorRun, hsel, hcur]
  · rw [hmain.1, hcur]
  · rw [hmain.2]
    decide

/-- Claim C2 counterexample: `main` (main.go lines 71-74) launches three
strategies, not four - there is no launch site for the bulk streaming
export strategy in `src/main.go` (`wg.Add(3)` and three `go` statements). -/
theorem claim_C2_counterexample :
    launchedStrategies.length = 3 ∧ launchedStrategies.length ≠ 4 := by
  decide

/-- Claim C2 amended: the harness launches the three implemented strategies
(server-side cursor, offset/limit pagination, keyset pagination) as
concurrent units of work, and - whenever the keyset loop terminates - the
outcome of each launched strategy is collected through the single result
channel: the drained results are exactly one per launched strategy. -/
theorem claim_C2_three_strategies :
    ∀ (sc : CursorFail) (so su : PageFail) (t : List Row) (L : Int) (b fuel : Nat),
      (customRunE su t L b fuel).status = .done →
      (mainSends sc so su t L b fuel).map GoResult.rtype = launchedStrategies := by
  intro sc so su t L b fuel hdone
  obtain ⟨r1, h1, ht1, _⟩ := cursorRunE_anatomy sc (selectLe t L) b
  obtain ⟨r2, h2, ht2, _⟩ := offsetRunE_anatomy so (selectLe t L) b
  obtain ⟨r3, h3, ht3, _⟩ := (customRunE_anatomy su t L b fuel).1 hdone
  unfold mainSends launchedStrategies
  rw [h1, h2, h3]
  simp [ht1, ht2, ht3]

theorem claim_C2_witness :
    (customRunE .ok [] 0 1 1).status = .done ∧
    (mainSends .ok .ok .ok [] 0 1 1).map GoResult.rtype = launchedStrategies :=
  ⟨by decide, claim_C2_three_strategies .ok .ok .ok [] 0 1 1 (by decide)⟩

/-- Property that the keyset strategy under a given table, limit and batch
size never sends any `Result` and never returns, however much fuel it is
given (its loop spins on an unadvanced watermark). -/
def keysetNeverSends (t : List Row) (L : Int) (b : Nat) : Prop :=
  ∀ fuel, (customRunE .ok t L b fuel).sends = [] ∧
    (customRunE .ok t L b fuel).status = .outOfFuel

/-- Claim C5 counterexample: on the one-row table keyed 1 with limit 1 and
batchSize 1, the launched keyset strategy never sends a `Result` on the
shared channel (it loops forever without advancing the watermark), so it is
not the case that every launched strategy sends exactly one `Result` along
every execution path, and the harness never observes N results. -/
theorem claim_C5_counterexample : keysetNeverSends [⟨1, 1, 0⟩] 1 1 := by
  intro fuel
  have hspin := customLoopE_spin [⟨1, 1, 0⟩] 1 0 1 (by decide) (by decide) fuel 0
  rw [customRunE]
  simp [PageFail.createErr, hspin]

/-- Claim C5 amended: along every terminating execution path each launched
strategy sends exactly one `Result` (the cursor and offset strategies
always terminate; the keyset strategy may fail to), and whenever the keyset
loop terminates the harness drains exactly N = 3 results from the single
channel, after which the supervisory goroutine has closed it. -/
theorem claim_C5_result_cardinality :
    ∀ (sc : CursorFail) (so su : PageFail) (t : List Row) (L : Int) (b fuel : Nat),
      (cursorRunE sc (selectLe t L) b).sends.length = 1 ∧
      (offsetRunE so (selectLe t L) b).sends.length = 1 ∧
      ((customRunE su t L b fuel).status = .done →
        (customRunE su t L b fuel).sends.length = 1) ∧
      ((customRunE su t L b fuel).status = .outOfFuel →
        (customRunE su t L b fuel).sends = []) ∧
      ((customRunE su t L b fuel).status = .done →
        (mainSends sc so su t L b fuel).length = 3) := by
  intro sc so su t L b fuel
  obtain ⟨r1, h1, _⟩ := cursorRunE_anatomy sc (selectLe t L) b
  obtain ⟨r2, h2, _⟩ := offsetRunE_anatomy so (selectLe t L) b
  refine ⟨by rw [h1]; rfl, by rw [h2]; rfl, ?_, ?_, ?_⟩
  · intro hdone
    obtain ⟨r3, h3, _⟩ := (customRunE_anatomy su t L b fuel).1 hdone
    rw [h3]
    rfl
  · intro hof
    exact ((customRunE_anatomy su t L b fuel).2 hof).1
  · intro hdone
    obtain ⟨r3, h3, _⟩ := (customRunE_anatomy su t L b fuel).1 hdone
    unfold mainSends
    rw [h1, h2, h3]
    rfl

theorem claim_C5_witness :
    (customRunE .ok [] 0 1 1).status = .done ∧
    (mainSends .ok .ok .ok [] 0 1 1).length = 3 :=
  ⟨by decide,
    (claim_C5_result_cardinality .ok .ok .ok [] 0 1 1).2.2.2.2 (by decide)⟩

/-- Claim C6 counterexample: when only the final commit fails, the cursor
strategy still sends the success `Result` (no error, success message); the
commit error exists only as the function's return value, which nothing
reads. -/
theorem claim_C6_counterexample :
    (cursorRunE (.commit "commit failed") [] 2).sends =
      [⟨"cursor", none, cursorDoneMsg⟩] ∧
    (cursorRunE (.commit "commit failed") [] 2).ret = some "commit failed" := by
  have hloop : (cursorLoopE (.commit "commit failed") 2 [] 0).2 = none :=
    cursorLoopE_none (CursorFail.commit "commit failed") 2 (fun _ => rfl) (fun _ => rfl)
      (fun _ => rfl) (fun _ => rfl) [] 0
  rw [cursorRunE]
  simp only [CursorFail.createErr, CursorFail.beginErr, CursorFail.declareErr,
    CursorFail.closeErr, CursorFail.commitErr, hloop]
  simp

/-- Claim C6 amended: in the server-side cursor strategy a failure at any
step other than the commit aborts the strategy and its `Result` carries
exactly the error the strategy returns (the step's wrapped error); a commit
failure does not: the `Result` is sent with no error (carrying the success
message) and the commit error is only the value returned by the strategy
function, which the harness never reads. -/
theorem claim_C6_commit_not_reported :
    ∀ (sched : CursorFail) (S : List Row) (b : Nat),
      ∃ r : GoResult, (cursorRunE sched S b).sends = [r] ∧
        ((∀ m, sched ≠ .commit m) →
          r.err = (cursorRunE sched S b).ret ∧
            ((cursorRunE sched S b).ret = none ∨
              (cursorRunE sched S b).ret = sched.errOf)) ∧
        (∀ m, sched = .commit m →
          r.err = none ∧ (cursorRunE sched S b).ret = some m) := by
  intro sched S b
  obtain ⟨r, h1, _, h3, h4, h5⟩ := cursorRunE_anatomy sched S b
  exact ⟨r, h1, fun h => ⟨h3 h, h5⟩, h4⟩

theorem claim_C6_witness :
    ∃ r : GoResult, (cursorRunE (.commit "boom") [] 2).sends = [r] ∧
      r.err = none ∧ (cursorRunE (.commit "boom") [] 2).ret = some "boom" := by
  obtain ⟨r, h1, _, h3⟩ := claim_C6_commit_not_reported (.commit "boom") [] 2
  obtain ⟨he, hr⟩ := h3 "boom" rfl
  exact ⟨r, h1, he, hr⟩

/-- Claim C7 counterexample: a CSV write failure in the offset/limit
strategy is placed into the `Result` unwrapped - the `fmt.Errorf` wrapper
built at main.go line 369 is discarded - so not every per-strategy error is
wrapped with context. -/
theorem claim_C7_counterexample :
    (offsetRunE (.writeRec 0 "disk full") (selectLe [⟨1, 1, 0⟩, ⟨2, 1, 0⟩] 2) 2).sends =
      [⟨"offset_limit", some "disk full", ""⟩] ∧
    "disk full" ≠ writeWrap "disk full" := by
  constructor
  · have hloop : offsetLoopE (.writeRec 0 "disk full") 2
        (selectLe [⟨1, 1, 0⟩, ⟨2, 1, 0⟩] 2) 0 0 = ([], some "disk full") := by
      rw [offsetLoopE]
      simp [PageFail.fetchErrAt, PageFail.scanErrAt, PageFail.writeErrAt, selectLe]
    rw [offsetRunE]
    simp only [PageFail.createErr, hloop]
  · decide

/-- Claim C7 amended: every error of the offset/limit and keyset strategies
is caught where it arises, stored in that strategy's `Result`, sent on the
shared channel (exactly one `Result`, whose error field equals the returned
error - nothing is silently dropped on those paths), and carries the
wrapping of the failing step - except the offset/limit CSV write error,
which is stored raw because its wrapper is discarded.  (The cursor
strategy's commit error, settled under C6, is the one error not surfaced.) -/
theorem claim_C7_error_surfacing :
    ∀ (so su : PageFail) (S t : List Row) (L : Int) (b fuel : Nat),
      (∃ r : GoResult, (offsetRunE so S b).sends = [r] ∧
        r.err = (offsetRunE so S b).ret ∧
        ((offsetRunE so S b).ret = none ∨ (offsetRunE so S b).ret = so.errOfOffset)) ∧
      ((customRunE su t L b fuel).status = .done →
        ∃ r : GoResult, (customRunE su t L b fuel).sends = [r] ∧
          r.err = (customRunE su t L b fuel).ret ∧
          ((customRunE su t L b fuel).ret = none ∨
            (customRunE su t L b fuel).ret = su.errOfCustom)) ∧
      (∀ k m, so = .writeRec k m →
        (offsetRunE so S b).ret = none ∨ (offsetRunE so S b).ret = some m) := by
  intro so su S t L b fuel
  obtain ⟨r1, h1, _, h3, h4⟩ := offsetRunE_anatomy so S b
  refine ⟨⟨r1, h1, h3, h4⟩, ?_, ?_⟩
  · intro hdone
    obtain ⟨r2, g1, _, g3, g4⟩ := (customRunE_anatomy su t L b fuel).1 hdone
    exact ⟨r2, g1, g3, g4⟩
  · intro k m hso
    subst hso
    rcases h4 with h | h
    · exact Or.inl h
    · right
      rw [h]
      rfl

theorem claim_C7_witness :
    (customRunE .ok [] 0 2 1).status = .done ∧
    (∃ r : GoResult, (customRunE .ok ([] : List Row) 0 2 1).sends = [r] ∧
      r.err = (customRunE .ok ([] : List Row) 0 2 1).ret ∧
      ((customRunE .ok ([] : List Row) 0 2 1).ret = none ∨
        (customRunE .ok ([] : List Row) 0 2 1).ret = PageFail.errOfCustom .ok)) :=
  ⟨by decide, (claim_C7_error_surfacing .ok .ok [] [] 0 2 1).2.1 (by decide)⟩
